import Mathlib

/-!
Verification development for the Automation Rule Engine of
`obsidian-project-manager-pro` (file `AutomationEngine.ts`).

The engine's data model and operations are shallowly embedded below:
pure TypeScript functions become Lean functions, the mutable rule map
becomes an explicit association list with JS `Map` semantics, effectful
collaborator calls (notification display, vault file creation) become an
abstract record of fallible functions, and exception propagation is made
explicit with `Except`.
-/

set_option autoImplicit false

namespace ObsidianPM

/-- Modelled from the spec: the repository's `ParameterValue` type lives in
`src/types.ts`, which is not part of the provided sources.  Spec §9 describes
the heterogeneous context/parameter values as "a tagged-variant scalar type
(string | number | boolean | nested-mapping)"; `null` is included because the
engine's own code tests `fieldValue !== null`.  JS numbers are modelled as
integers: no claim depends on fractional or NaN behaviour, only on the
runtime type tag and ordering. -/
inductive JsValue where
  | str (s : String)
  | num (n : Int)
  | bool (b : Bool)
  | null
  | obj (fields : List (String × JsValue))

/-- A JS object / the automation context: an ordered association list of
string keys to values (`AutomationContext` in the source). -/
def JsObj : Type := List (String × JsValue)

/-- JS `String(value)` on the value forms of `JsValue`. -/
def jsToString : JsValue → String
  | .str s => s
  | .num n => toString n
  | .bool b => if b then "true" else "false"
  | .null => "null"
  | .obj _ => "[object Object]"

/-- JS truth test `!x` (negated): `undefined`, `null`, `false`, `0` and the
empty string are falsy; every object is truthy.  `none` stands for
`undefined`. -/
def jsFalsy : Option JsValue → Bool
  | none => true
  | some (.str s) => s == ""
  | some (.num n) => n == 0
  | some (.bool b) => !b
  | some .null => true
  | some (.obj _) => false

/-- JS strict equality `===` on defined values.  On objects `===` is
reference equality; a rule's literal `value` and a context value are always
distinct allocations in this program, so object-object comparison is
`false`. -/
def jsStrictEq : JsValue → JsValue → Bool
  | .str a, .str b => a == b
  | .num a, .num b => a == b
  | .bool a, .bool b => a == b
  | .null, .null => true
  | _, _ => false

/-- Does the character list `l` start with `p`?  (Helper for JS
`String.prototype.includes`.) -/
def startsWithChars : List Char → List Char → Bool
  | [], _ => true
  | _ :: _, [] => false
  | a :: as, b :: bs => a == b && startsWithChars as bs

/-- JS `haystack.includes(needle)` on character lists. -/
def containsSub (haystack needle : List Char) : Bool :=
  match haystack with
  | [] => needle.isEmpty
  | _ :: rest => startsWithChars needle haystack || containsSub rest needle

/-- Property access `value?.[part]` (`getFieldValue`, line 198): key lookup
on an object; on every other value form of `ParameterValue` (and on
`null`/`undefined` via optional chaining) the result is `undefined`. -/
def getProp : JsValue → String → Option JsValue
  | .obj fields, k => (fields.find? (fun p => p.1 == k)).map (fun p => p.2)
  | _, _ => none

/-- The loop of `getFieldValue` (lines 196-200): descend part by part;
once the value is `undefined` the loop breaks and `undefined` is
returned. -/
def descend : Option JsValue → List String → Option JsValue
  | v, [] => v
  | none, _ :: _ => none
  | some v, p :: ps => descend (getProp v p) ps

/-- Accumulator for `splitDot`; mirrors JS `field.split('.')`. -/
def splitDotAux : List Char → List Char → List String
  | [], acc => [String.mk acc.reverse]
  | '.' :: rest, acc => String.mk acc.reverse :: splitDotAux rest []
  | c :: rest, acc => splitDotAux rest (c :: acc)

/-- JS `field.split('.')`: splits on every dot, keeping empty segments
(`"".split('.') = [""]`). -/
def splitDot (l : List Char) : List String :=
  splitDotAux l []

/-- `getFieldValue(context, field)` (lines 194-202): split the field on
`.` and descend through the context. -/
def getFieldValue (context : JsObj) (field : String) : Option JsValue :=
  descend (some (JsValue.obj context)) (splitDot field.data)

/-- `evaluateCondition(fieldValue, operator, conditionValue)`
(lines 204-223), the `switch` on the operator string.  A total `Bool`
function: no branch can throw. -/
def evaluateCondition (fieldValue : Option JsValue) (operator : String)
    (conditionValue : JsValue) : Bool :=
  match operator with
  | "equals" =>
    match fieldValue with
    | some v => jsStrictEq v conditionValue
    | none => false
  | "not_equals" =>
    match fieldValue with
    | some v => !jsStrictEq v conditionValue
    | none => true
  | "contains" =>
    match fieldValue, conditionValue with
    | some (.str s), .str sub => containsSub s.data sub.data
    | _, _ => false
  | "greater_than" =>
    match fieldValue, conditionValue with
    | some (.num a), .num b => decide (a > b)
    | _, _ => false
  | "less_than" =>
    match fieldValue, conditionValue with
    | some (.num a), .num b => decide (a < b)
    | _, _ => false
  | "is_empty" =>
    jsFalsy fieldValue ||
      (match fieldValue with
       | some (.str s) => s.length == 0
       | _ => false)
  | "is_not_empty" =>
    match fieldValue with
    | none => false
    | some .null => false
    | some (.str s) => decide (s.length > 0)
    | some _ => true
  | _ => false

/-- `AutomationTrigger` (lines 19-22); `parameters` is optional and never
matched on by dispatch. -/
structure AutomationTrigger where
  type : String
  parameters : List (String × JsValue) := []

/-- `AutomationCondition` (lines 24-28). -/
structure AutomationCondition where
  field : String
  operator : String
  value : JsValue

/-- `AutomationAction` (lines 30-33). -/
structure AutomationAction where
  type : String
  parameters : List (String × JsValue)

/-- `AutomationRule` (lines 9-17). -/
structure AutomationRule where
  id : String
  name : String
  description : String
  trigger : AutomationTrigger
  conditions : List AutomationCondition
  actions : List AutomationAction
  enabled : Bool

/-- `evaluateConditions(conditions, context)` (lines 182-192): short-circuit
conjunction over the list; the empty list is vacuously true. -/
def evaluateConditions : List AutomationCondition → JsObj → Bool
  | [], _ => true
  | c :: cs, context =>
    if evaluateCondition (getFieldValue context c.field) c.operator c.value
    then evaluateConditions cs context
    else false

/-- JS `path.trim()` applied to a captured token body (`interpolateString`,
line 302); modelled with Lean's ASCII whitespace predicate. -/
def trimChars (l : List Char) : List Char :=
  ((l.dropWhile Char.isWhitespace).reverse.dropWhile Char.isWhitespace).reverse

/-- The replacement callback of `interpolateString` (lines 301-304): look the
trimmed path up in the context; a defined value is stringified, an undefined
one leaves the whole matched token `{{content}}` unchanged. -/
def interpReplacement (context : JsObj) (content : List Char) : List Char :=
  match getFieldValue context (String.mk (trimChars content)) with
  | some v => (jsToString v).data
  | none => '{' :: '{' :: (content ++ ['}', '}'])

/-- Does a `/\{\{([^}]+)\}\}/` match start at the head of `l`?  The greedy
group `[^}]+` is the maximal run of non-`}` characters, which must be
non-empty and followed immediately by `}}`. -/
def headTokenMatch (l : List Char) : Bool :=
  match l with
  | '{' :: '{' :: rest =>
    match rest.takeWhile (fun c => c != '}'), rest.dropWhile (fun c => c != '}') with
    | _ :: _, '}' :: '}' :: _ => true
    | _, _ => false
  | _ => false

/-- Does the template contain any `{{...}}` token?  Mirrors the regex
engine's scan: try a match at every position. -/
def hasToken : List Char → Bool
  | [] => false
  | c :: rest => headTokenMatch (c :: rest) || hasToken rest

/-- The global-replace loop of `interpolateString` (line 301) on character
lists: scan left to right; at a match consume the token and emit the
replacement, otherwise emit one character and continue at the next
position. -/
def interpList (context : JsObj) : List Char → List Char
  | '{' :: '{' :: rest =>
    match h : rest.dropWhile (fun c => c != '}'), rest.takeWhile (fun c => c != '}') with
    | '}' :: '}' :: rest2, _ :: _ =>
      interpReplacement context (rest.takeWhile (fun c => c != '}')) ++ interpList context rest2
    | _, _ => '{' :: interpList context ('{' :: rest)
  | c :: rest => c :: interpList context rest
  | [] => []
termination_by l => l.length
decreasing_by
  · have hle : (rest.dropWhile (fun c => c != '}')).length ≤ rest.length :=
      (List.dropWhile_sublist _).length_le
    rw [h] at hle
    simp only [List.length_cons] at hle ⊢
    omega
  · simp only [List.length_cons]
    omega
  · simp only [List.length_cons]
    omega

/-- `interpolateString(template, context)` (lines 300-305). -/
def interpolateString (template : String) (context : JsObj) : String :=
  String.mk (interpList context template.data)

/-- The engine's effectful collaborators (§6 of the spec): the notification
sink (`new Notice(...)`) and the document store (`app.vault.create`).  Each
call may throw, which the model surfaces as `Except`. -/
structure Collaborators where
  notice : String → Except String Unit
  vaultCreate : String → String → Except String Unit

/-- A `parameters.x as string` value flowing into
`interpolateString(x, context)`: at runtime a non-string (including
`undefined`) has no `.replace` method, so a `TypeError` is thrown. -/
def asTemplate : Option JsValue → Except String String
  | some (.str s) => .ok s
  | _ => .error "TypeError: template.replace is not a function"

/-- JS nullish coalescing `a ?? b`. -/
def jsNullish : Option JsValue → Option JsValue → Option JsValue
  | none, b => b
  | some .null, b => b
  | some v, _ => some v

/-- `sendNotification` (lines 257-262): interpolate `parameters.message`,
hand it to the notification sink. -/
def sendNotification (collab : Collaborators) (params : List (String × JsValue))
    (context : JsObj) : Except String Unit := do
  let t ← asTemplate (getProp (.obj params) "message")
  collab.notice (interpolateString t context)

/-- `createTask` (lines 264-270): interpolates `parameters.title`, then only
logs (no collaborator mutation yet). -/
def createTask (params : List (String × JsValue)) (context : JsObj) :
    Except String Unit := do
  let t ← asTemplate (getProp (.obj params) "title")
  let _title := interpolateString t context
  pure ()

/-- `updateTask` (lines 272-278): computes `parameters.taskId ?? context.task?.id`
and logs; nothing fallible. -/
def updateTask (params : List (String × JsValue)) (context : JsObj) :
    Except String Unit :=
  let _taskId := jsNullish (getProp (.obj params) "taskId")
    (descend (some (.obj context)) ["task", "id"])
  .ok ()

/-- `createNote` (lines 280-289): interpolate `content` and `path`, then call
the document store; a store failure is caught and logged inside `createNote`
itself (lines 284-288). -/
def createNote (collab : Collaborators) (params : List (String × JsValue))
    (context : JsObj) : Except String Unit := do
  let c ← asTemplate (getProp (.obj params) "content")
  let p ← asTemplate (getProp (.obj params) "path")
  let content := interpolateString c context
  let path := interpolateString p context
  match collab.vaultCreate path content with
  | .ok _ => .ok ()
  | .error _ => .ok ()

/-- `updateStatus` (lines 291-298): reads `parameters.type` and logs. -/
def updateStatus (params : List (String × JsValue)) (context : JsObj) :
    Except String Unit :=
  let _ty := getProp (.obj params) "type"
  .ok ()

/-- `executeAction` (lines 235-255): the `switch` on `action.type`.  The
source has no `send_email` case, so it falls to the default
`console.warn` branch. -/
def executeAction (collab : Collaborators) (action : AutomationAction)
    (context : JsObj) : Except String Unit :=
  match action.type with
  | "send_notification" => sendNotification collab action.parameters context
  | "create_task" => createTask action.parameters context
  | "update_task" => updateTask action.parameters context
  | "create_note" => createNote collab action.parameters context
  | "update_status" => updateStatus action.parameters context
  | _ => .ok ()

/-- `executeActions` (lines 225-233): each action runs inside its own
`try`/`catch`; a caught error is logged (recorded here as the `Option
String` of the outcome) and the loop continues with the next action. -/
def executeActions (collab : Collaborators) (context : JsObj) :
    List AutomationAction → Except String (List (AutomationAction × Option String))
  | [] => .ok []
  | a :: rest =>
    let outcome : AutomationAction × Option String :=
      match executeAction collab a context with
      | .ok _ => (a, none)
      | .error e => (a, some e)
    (executeActions collab context rest).map (fun outs => outcome :: outs)

/-- Observable steps of one dispatch: a rule's condition list was evaluated
(with its result), or one action of a rule was run at a position in the
rule's action list (with the per-action caught error, if any). -/
inductive DispatchEvent where
  | condsEvaluated (rule : AutomationRule) (result : Bool)
  | actionRun (rule : AutomationRule) (index : Nat) (action : AutomationAction)
      (caughtError : Option String)

/-- The rule an event belongs to. -/
def eventRule : DispatchEvent → AutomationRule
  | .condsEvaluated r _ => r
  | .actionRun r _ _ _ => r

/-- Action outcomes of one rule, tagged with their position. -/
def actionEvents (r : AutomationRule) : Nat → List (AutomationAction × Option String) → List DispatchEvent
  | _, [] => []
  | i, o :: rest => .actionRun r i o.1 o.2 :: actionEvents r (i + 1) rest

/-- The per-rule body of the dispatch loop (lines 175-179): evaluate the
conditions; only when they all pass, execute the actions. -/
def dispatchRule (collab : Collaborators) (context : JsObj) (r : AutomationRule) :
    Except String (List DispatchEvent) :=
  if evaluateConditions r.conditions context then
    (executeActions collab context r.actions).map
      (fun outs => DispatchEvent.condsEvaluated r true :: actionEvents r 0 outs)
  else .ok [DispatchEvent.condsEvaluated r false]

/-- The `for (const rule of applicableRules)` loop of `triggerAutomation`. -/
def dispatchRules (collab : Collaborators) (context : JsObj) :
    List AutomationRule → Except String (List DispatchEvent)
  | [] => .ok []
  | r :: rest => do
    let evs ← dispatchRule collab context r
    let more ← dispatchRules collab context rest
    .ok (evs ++ more)

/-- Engine state: the `Map<string, AutomationRule>` (as an insertion-ordered
association list) and the global `isEnabled` flag (lines 57-58). -/
structure AutomationEngine where
  rules : List (String × AutomationRule)
  isEnabled : Bool

/-- JS `Map.prototype.set`: replace in place when the key exists (keeping its
insertion position), otherwise append. -/
def mapSet (m : List (String × AutomationRule)) (k : String) (v : AutomationRule) :
    List (String × AutomationRule) :=
  if m.any (fun p => p.1 == k) then
    m.map (fun p => if p.1 == k then (k, v) else p)
  else m ++ [(k, v)]

/-- JS `Map.prototype.get`. -/
def mapGet (m : List (String × AutomationRule)) (k : String) : Option AutomationRule :=
  (m.find? (fun p => p.1 == k)).map (fun p => p.2)

/-- JS `Map.prototype.delete`. -/
def mapDelete (m : List (String × AutomationRule)) (k : String) :
    List (String × AutomationRule) :=
  m.filter (fun p => p.1 != k)

/-- `addRule` (lines 316-318). -/
def addRule (e : AutomationEngine) (rule : AutomationRule) : AutomationEngine :=
  { e with rules := mapSet e.rules rule.id rule }

/-- `removeRule` (lines 320-322). -/
def removeRule (e : AutomationEngine) (ruleId : String) : AutomationEngine :=
  { e with rules := mapDelete e.rules ruleId }

/-- `enableRule` (lines 324-329): mutates the stored rule's flag if present. -/
def enableRule (e : AutomationEngine) (ruleId : String) : AutomationEngine :=
  { e with rules := e.rules.map (fun p =>
      if p.1 == ruleId then (p.1, { p.2 with enabled := true }) else p) }

/-- `disableRule` (lines 331-336). -/
def disableRule (e : AutomationEngine) (ruleId : String) : AutomationEngine :=
  { e with rules := e.rules.map (fun p =>
      if p.1 == ruleId then (p.1, { p.2 with enabled := false }) else p) }

/-- `getRules` (lines 338-340): `Array.from(this.rules.values())`. -/
def getRules (e : AutomationEngine) : List AutomationRule :=
  e.rules.map (fun p => p.2)

/-- `getRule` (lines 342-344). -/
def getRule (e : AutomationEngine) (ruleId : String) : Option AutomationRule :=
  mapGet e.rules ruleId

/-- `setEnabled` (lines 346-348). -/
def setEnabled (e : AutomationEngine) (enabled : Bool) : AutomationEngine :=
  { e with isEnabled := enabled }

/-- `isAutomationEnabled` (lines 350-352). -/
def isAutomationEnabled (e : AutomationEngine) : Bool :=
  e.isEnabled

/-- The filter of `triggerAutomation` (lines 171-173): enabled rules whose
trigger type equals the dispatched one, in registry iteration order. -/
def applicableRules (e : AutomationEngine) (triggerType : String) : List AutomationRule :=
  (e.rules.map (fun p => p.2)).filter (fun r => r.enabled && r.trigger.type == triggerType)

/-- `triggerAutomation(triggerType, context)` (lines 168-180), the dispatch
entry point.  Returns the event trace together with the engine state and the
context after the call: the source body contains no assignment to
`this.rules` or to `context`, so both come back as they went in. -/
def triggerAutomation (collab : Collaborators) (e : AutomationEngine)
    (triggerType : String) (context : JsObj) :
    Except String (List DispatchEvent × AutomationEngine × JsObj) :=
  if !e.isEnabled then .ok ([], e, context)
  else
    (dispatchRules collab context (applicableRules e triggerType)).map
      (fun evs => (evs, e, context))

/-- First default rule of `loadDefaultRules` (lines 76-92).  The condition
literal `new Date().toISOString()` is a string whose exact content depends on
the clock, so it is a parameter here. -/
def overdueTaskRule (isoNow : String) : AutomationRule :=
  { id := "overdue-task-notification"
    name := "Overdue Task Notification"
    description := "Send notification when tasks become overdue"
    trigger := { type := "daily_schedule" }
    conditions :=
      [{ field := "dueDate", operator := "less_than", value := .str isoNow },
       { field := "status", operator := "not_equals", value := .str "done" }]
    actions :=
      [{ type := "send_notification",
         parameters := [("message", .str "You have overdue tasks!")] }]
    enabled := true }

/-- Second default rule (lines 93-106). -/
def milestoneRule : AutomationRule :=
  { id := "task-completion-milestone"
    name := "Check Milestones on Task Completion"
    description := "Check if milestones are reached when tasks are completed"
    trigger := { type := "task_completed" }
    conditions := []
    actions := [{ type := "update_status", parameters := [("type", .str "milestone")] }]
    enabled := true }

/-- Third default rule (lines 107-122). -/
def highPriorityRule : AutomationRule :=
  { id := "high-priority-notification"
    name := "High Priority Task Alert"
    description := "Send immediate notification for high priority tasks"
    trigger := { type := "task_created" }
    conditions := [{ field := "priority", operator := "equals", value := .str "high" }]
    actions :=
      [{ type := "send_notification",
         parameters :=
           [("message", .str "High priority task created: {{task.title}}")] }]
    enabled := true }

/-- `loadDefaultRules` (lines 74-128): insert the three default rules. -/
def loadDefaultRules (isoNow : String) (e : AutomationEngine) : AutomationEngine :=
  { e with rules :=
      ([overdueTaskRule isoNow, milestoneRule, highPriorityRule].foldl
        (fun m r => mapSet m r.id r) e.rules) }

/-- The constructor (lines 60-64): empty registry, `isEnabled` from settings. -/
def mkEngine (enableAutomation : Bool) : AutomationEngine :=
  { rules := [], isEnabled := enableAutomation }

/-- The engine's initialization (lines 66-72): when enabled, load the
default rules.  `loadCustomRules` (lines 130-143) adds nothing and
`setupEventListeners` only arms the scheduler. -/
def initializeEngine (isoNow : String) (e : AutomationEngine) : AutomationEngine :=
  if !e.isEnabled then e else loadDefaultRules isoNow e

/-- Milliseconds per hour. -/
def msPerHour : Nat := 60 * 60 * 1000

/-- Milliseconds per day. -/
def msPerDay : Nat := 24 * msPerHour

/-- `setupDailySchedule` (lines 152-166): `now` is a local-time clock reading
in milliseconds (days are uniform 24 h; DST shifts are out of scope, spec §9).
`tomorrow.setDate(getDate() + 1); tomorrow.setHours(9, 0, 0, 0)` lands on
09:00 of the next calendar day, unconditionally; the first `setTimeout`
fires then. -/
def firstFireTime (now : Nat) : Nat :=
  (now / msPerDay + 1) * msPerDay + 9 * msPerHour

/-- The `n`-th scheduler fire: the first `setTimeout` fire, then a
`setInterval` of `24 * 60 * 60 * 1000` ms (lines 161-165). -/
def fireTime (now n : Nat) : Nat :=
  firstFireTime now + n * msPerDay

/-- Modelled from the spec: "compute the next occurrence of the target hour
strictly after now (if now is already past today's target hour, schedule for
tomorrow's target hour)" — the spec's scheduling rule, for comparison with
`firstFireTime`. -/
def specNextOccurrence (now : Nat) : Nat :=
  if now % msPerDay < 9 * msPerHour then now / msPerDay * msPerDay + 9 * msPerHour
  else (now / msPerDay + 1) * msPerDay + 9 * msPerHour

/-! ## Helper lemmas -/

/-- A `less_than` condition whose literal is a string can never hold: the
operator requires `typeof conditionValue === 'number'`. -/
theorem lessThan_str_false (fv : Option JsValue) (s : String) :
    evaluateCondition fv "less_than" (.str s) = false := by
  cases fv with
  | none => rfl
  | some v => cases v <;> rfl

theorem mapGet_find_none {m : List (String × AutomationRule)} {k : String}
    (h : m.any (fun p => p.1 == k) = false) :
    m.find? (fun p => p.1 == k) = none := by
  rw [List.find?_eq_none]
  intro p hp
  simp only [List.any_eq_false] at h
  exact h p hp

theorem find_map_set (k : String) (v : AutomationRule) :
    ∀ m : List (String × AutomationRule), m.any (fun p => p.1 == k) = true →
      (m.map (fun p => if p.1 == k then (k, v) else p)).find? (fun p => p.1 == k) =
        some (k, v) := by
  intro m
  induction m with
  | nil => intro h; simp at h
  | cons p rest ih =>
    intro h
    rw [List.map_cons]
    by_cases hk : (p.1 == k) = true
    · rw [if_pos hk]
      simp [List.find?_cons]
    · have hk' : (p.1 == k) = false := Bool.eq_false_iff.mpr hk
      rw [if_neg hk]
      simp only [List.find?_cons, hk']
      have hrest : rest.any (fun p => p.1 == k) = true := by
        simp only [List.any_cons, hk', Bool.false_or] at h
        exact h
      exact ih hrest

/-- `Map.set` followed by `Map.get` on the same key returns the new value. -/
theorem mapGet_mapSet (m : List (String × AutomationRule)) (k : String)
    (v : AutomationRule) : mapGet (mapSet m k v) k = some v := by
  unfold mapGet mapSet
  by_cases h : m.any (fun p => p.1 == k) = true
  · rw [if_pos h, find_map_set k v m h]
    rfl
  · have h' : m.any (fun p => p.1 == k) = false := Bool.eq_false_iff.mpr h
    rw [if_neg h, List.find?_append, mapGet_find_none h']
    simp [List.find?]

/-- `Map.delete` followed by `Map.get` on the same key returns nothing. -/
theorem mapGet_mapDelete (m : List (String × AutomationRule)) (k : String) :
    mapGet (mapDelete m k) k = none := by
  unfold mapGet mapDelete
  have hnone : (m.filter (fun p => p.1 != k)).find? (fun p => p.1 == k) = none := by
    rw [List.find?_eq_none]
    intro p hp
    have h2 := (List.mem_filter.mp hp).2
    simp only [bne_iff_ne, ne_eq] at h2
    simp [h2]
  rw [hnone]
  rfl

/-! ## Claim theorems -/

/-- C4: a `greater_than` / `less_than` condition is true exactly when both
the field value and the literal are numbers and the numeric comparison
holds; with a non-number (or undefined) on either side it is false.  The
evaluator is a total `Bool` function, so no input can make it throw. -/
theorem numericComparisonOnlyOnNumbers (fv : Option JsValue) (cv : JsValue) :
    (evaluateCondition fv "greater_than" cv = true ↔
      ∃ a b : Int, fv = some (.num a) ∧ cv = .num b ∧ a > b) ∧
    (evaluateCondition fv "less_than" cv = true ↔
      ∃ a b : Int, fv = some (.num a) ∧ cv = .num b ∧ a < b) := by
  constructor <;>
  · rcases fv with _ | v
    · simp [evaluateCondition]
    · cases v <;> cases cv <;> simp [evaluateCondition]

/-- C5: `is_empty` is true on a field path that is missing from the context
(resolves to `undefined`) and on one that resolves to the empty string; it
is false on a non-empty string and on a defined non-empty object. -/
theorem isEmptyOnFieldResolution (context : JsObj) (field : String) (cv : JsValue) :
    (getFieldValue context field = none →
      evaluateCondition (getFieldValue context field) "is_empty" cv = true) ∧
    (getFieldValue context field = some (.str "") →
      evaluateCondition (getFieldValue context field) "is_empty" cv = true) ∧
    (∀ s : String, s ≠ "" → getFieldValue context field = some (.str s) →
      evaluateCondition (getFieldValue context field) "is_empty" cv = false) ∧
    (∀ fields : List (String × JsValue), fields ≠ [] →
      getFieldValue context field = some (.obj fields) →
      evaluateCondition (getFieldValue context field) "is_empty" cv = false) := by
  refine ⟨fun h => ?_, fun h => ?_, fun s hs h => ?_, fun fields _ h => ?_⟩ <;>
    rw [h]
  · rfl
  · rfl
  · have hlen : ¬s.length = 0 := by
      intro hz
      apply hs
      cases s with
      | mk data =>
        simp [String.length] at hz
        simp [hz]
    simp [evaluateCondition, jsFalsy, hlen, hs]
  · rfl

/-- C5 witness: the four cases at concrete contexts. -/
theorem isEmptyOnFieldResolution_witness :
    evaluateCondition (getFieldValue [] "missing.path") "is_empty" .null = true ∧
    evaluateCondition (getFieldValue [("note", .str "")] "note") "is_empty" .null = true ∧
    evaluateCondition (getFieldValue [("note", .str "x")] "note") "is_empty" .null = false ∧
    evaluateCondition (getFieldValue [("task", .obj [("id", .str "t1")])] "task")
      "is_empty" .null = false :=
  ⟨(isEmptyOnFieldResolution [] "missing.path" .null).1 rfl,
   (isEmptyOnFieldResolution [("note", .str "")] "note" .null).2.1 rfl,
   (isEmptyOnFieldResolution [("note", .str "x")] "note" .null).2.2.1 "x"
     (by decide) rfl,
   (isEmptyOnFieldResolution [("task", .obj [("id", .str "t1")])] "task" .null).2.2.2
     [("id", .str "t1")] (by simp) rfl⟩

/-- C7: registry round-trip — an added rule is fetched back structurally
equal under its id; a later `addRule` under the same id replaces the earlier
rule; after `removeRule` the id reports not-found. -/
theorem ruleRegistryRoundTrip (e : AutomationEngine) (r r2 : AutomationRule)
    (ruleId : String) :
    getRule (addRule e r) r.id = some r ∧
    (r.id = r2.id → getRule (addRule (addRule e r) r2) r.id = some r2) ∧
    getRule (removeRule e ruleId) ruleId = none := by
  refine ⟨?_, fun hid => ?_, ?_⟩
  · exact mapGet_mapSet e.rules r.id r
  · rw [hid]
    exact mapGet_mapSet (addRule e r).rules r2.id r2
  · exact mapGet_mapDelete e.rules ruleId

/-- A structurally different rule sharing `milestoneRule`'s id, for the
last-add-wins witness. -/
def milestoneRuleV2 : AutomationRule :=
  { milestoneRule with name := "replacement" }

/-- C7 witness: concrete round-trips through the registry. -/
theorem ruleRegistryRoundTrip_witness :
    getRule (addRule (mkEngine true) milestoneRule) milestoneRule.id =
      some milestoneRule ∧
    getRule (addRule (addRule (mkEngine true) milestoneRule) milestoneRuleV2)
      milestoneRule.id = some milestoneRuleV2 ∧
    getRule (removeRule (addRule (mkEngine true) milestoneRule) milestoneRule.id)
      milestoneRule.id = none :=
  ⟨(ruleRegistryRoundTrip (mkEngine true) milestoneRule milestoneRule "x").1,
   (ruleRegistryRoundTrip (mkEngine true) milestoneRule milestoneRuleV2 "x").2.1 rfl,
   (ruleRegistryRoundTrip (addRule (mkEngine true) milestoneRule) milestoneRule
      milestoneRule milestoneRule.id).2.2⟩

/-- C3 counterexample: a scheduler started at 08:00 local time (before the
09:00 target) does not fire at today's 09:00 — the next occurrence strictly
after "now" — but only at 09:00 of the next calendar day, 25 hours later. -/
theorem dailySchedule_counterexample :
    firstFireTime (8 * msPerHour) ≠ specNextOccurrence (8 * msPerHour) ∧
    specNextOccurrence (8 * msPerHour) = 9 * msPerHour ∧
    firstFireTime (8 * msPerHour) = msPerDay + 9 * msPerHour := by
  refine ⟨?_, ?_, ?_⟩ <;> decide

/-- C3 (amended): the first `daily_schedule` fire is always scheduled at
09:00 of the next calendar day — it agrees with the spec's
next-occurrence-strictly-after-now rule exactly when the process starts at
or after today's 09:00, and overshoots it by 24 hours when the process
starts earlier — and subsequent fires re-arm on a fixed 24-hour period from
the first fire. -/
theorem dailyScheduleNextDay (now n : Nat) :
    now < firstFireTime now ∧
    (9 * msPerHour ≤ now % msPerDay → firstFireTime now = specNextOccurrence now) ∧
    (now % msPerDay < 9 * msPerHour →
      firstFireTime now = specNextOccurrence now + msPerDay) ∧
    fireTime now (n + 1) = fireTime now n + msPerDay := by
  refine ⟨?_, fun h => ?_, fun h => ?_, ?_⟩
  · simp only [firstFireTime, msPerDay, msPerHour]
    omega
  · rw [specNextOccurrence, if_neg (by omega)]
    rfl
  · rw [specNextOccurrence, if_pos h]
    simp only [firstFireTime, msPerDay, msPerHour]
    omega
  · simp only [fireTime, firstFireTime, msPerDay, msPerHour]
    ring

/-- C3 witness: the spec's own scenario (process started at 14:00 local
time) and the 24-hour re-arm, at concrete instants. -/
theorem dailyScheduleNextDay_witness :
    firstFireTime (14 * msPerHour) = specNextOccurrence (14 * msPerHour) ∧
    fireTime (14 * msPerHour) 1 = fireTime (14 * msPerHour) 0 + msPerDay :=
  ⟨(dailyScheduleNextDay (14 * msPerHour) 0).2.1 (by decide),
   (dailyScheduleNextDay (14 * msPerHour) 0).2.2.2⟩

/-- The per-action `try`/`catch` loop never propagates: it always returns
`ok` with one outcome per action, in order. -/
theorem executeActions_ok (collab : Collaborators) (context : JsObj)
    (actions : List AutomationAction) :
    ∃ outs, executeActions collab context actions = .ok outs ∧
      outs.map Prod.fst = actions := by
  induction actions with
  | nil => exact ⟨[], rfl, rfl⟩
  | cons a rest ih =>
    obtain ⟨outs, hok, hmap⟩ := ih
    cases hr : executeAction collab a context with
    | ok u =>
      refine ⟨(a, none) :: outs, ?_, by simp [hmap]⟩
      simp [executeActions, hr, hok, Except.map]
    | error err =>
      refine ⟨(a, some err) :: outs, ?_, by simp [hmap]⟩
      simp [executeActions, hr, hok, Except.map]

theorem actionEvents_eventRule (r : AutomationRule) :
    ∀ (outs : List (AutomationAction × Option String)) (i : Nat),
      ∀ ev ∈ actionEvents r i outs, eventRule ev = r := by
  intro outs
  induction outs with
  | nil => intro i ev hev; simp [actionEvents] at hev
  | cons o rest ih =>
    intro i ev hev
    rcases List.mem_cons.mp hev with h | h
    · rw [h]; rfl
    · exact ih (i + 1) ev h

theorem actionEvents_mem (r : AutomationRule) :
    ∀ (outs : List (AutomationAction × Option String)) (i j : Nat)
      (h : j < outs.length),
      DispatchEvent.actionRun r (i + j) ((outs.get ⟨j, h⟩).1) ((outs.get ⟨j, h⟩).2) ∈
        actionEvents r i outs := by
  intro outs
  induction outs with
  | nil => intro i j h; simp at h
  | cons o rest ih =>
    intro i j h
    cases j with
    | zero => simp [actionEvents]
    | succ j2 =>
      have hmem := ih (i + 1) j2 (Nat.lt_of_succ_lt_succ h)
      have harith : i + (j2 + 1) = (i + 1) + j2 := by omega
      rw [harith]
      exact List.mem_cons_of_mem _ hmem

/-- One rule's dispatch step: it cannot fail, its events all belong to that
rule, its condition evaluation is recorded, and when the conditions pass
every action position is attempted. -/
theorem dispatchRule_spec (collab : Collaborators) (context : JsObj)
    (r : AutomationRule) :
    ∃ evs, dispatchRule collab context r = .ok evs ∧
      (∀ ev ∈ evs, eventRule ev = r) ∧
      DispatchEvent.condsEvaluated r (evaluateConditions r.conditions context) ∈ evs ∧
      (evaluateConditions r.conditions context = true →
        ∀ (i : Nat) (h : i < r.actions.length),
          ∃ err, DispatchEvent.actionRun r i (r.actions.get ⟨i, h⟩) err ∈ evs) := by
  cases hc : evaluateConditions r.conditions context with
  | false =>
    refine ⟨[DispatchEvent.condsEvaluated r false], ?_, ?_, by simp, ?_⟩
    · simp [dispatchRule, hc]
    · intro ev hev
      rcases List.mem_cons.mp hev with h | h
      · rw [h]; rfl
      · simp at h
    · intro h
      exact absurd h (by simp)
  | true =>
    obtain ⟨outs, hok, hmap⟩ := executeActions_ok collab context r.actions
    refine ⟨DispatchEvent.condsEvaluated r true :: actionEvents r 0 outs, ?_, ?_,
      List.mem_cons_self _ _, ?_⟩
    · simp [dispatchRule, hc, hok, Except.map]
    · intro ev hev
      rcases List.mem_cons.mp hev with h | h
      · rw [h]; rfl
      · exact actionEvents_eventRule r outs 0 ev h
    · intro _ i hlen
      have hlen2 : i < outs.length := by
        have hl := congrArg List.length hmap
        simp at hl
        omega
      have hfst : (outs.get ⟨i, hlen2⟩).1 = r.actions.get ⟨i, hlen⟩ := by
        have hopt : (outs.map Prod.fst).get? i = r.actions.get? i := by rw [hmap]
        rw [List.get?_map, List.get?_eq_get hlen2, List.get?_eq_get hlen] at hopt
        simpa using hopt
      refine ⟨(outs.get ⟨i, hlen2⟩).2, List.mem_cons_of_mem _ ?_⟩
      have hmem := actionEvents_mem r outs 0 i hlen2
      rw [Nat.zero_add, hfst] at hmem
      exact hmem

/-- The dispatch loop over a rule list: cannot fail, every event belongs to
a listed rule, and every listed rule is fully processed. -/
theorem dispatchRules_spec (collab : Collaborators) (context : JsObj) :
    ∀ rs : List AutomationRule,
      ∃ evs, dispatchRules collab context rs = .ok evs ∧
        (∀ ev ∈ evs, eventRule ev ∈ rs) ∧
        (∀ r ∈ rs,
          DispatchEvent.condsEvaluated r (evaluateConditions r.conditions context) ∈ evs ∧
          (evaluateConditions r.conditions context = true →
            ∀ (i : Nat) (h : i < r.actions.length),
              ∃ err, DispatchEvent.actionRun r i (r.actions.get ⟨i, h⟩) err ∈ evs)) := by
  intro rs
  induction rs with
  | nil => exact ⟨[], rfl, by simp, by simp⟩
  | cons r rest ih =>
    obtain ⟨evs1, hok1, hrule1, hconds1, hacts1⟩ := dispatchRule_spec collab context r
    obtain ⟨evs2, hok2, hrule2, hprops2⟩ := ih
    refine ⟨evs1 ++ evs2, ?_, ?_, ?_⟩
    · simp only [dispatchRules, hok1, hok2]
      rfl
    · intro ev hev
      rcases List.mem_append.mp hev with h | h
      · exact List.mem_cons.mpr (Or.inl (hrule1 ev h))
      · exact List.mem_cons_of_mem _ (hrule2 ev h)
    · intro r' hr'
      rcases List.mem_cons.mp hr' with h | h
      · subst h
        refine ⟨List.mem_append_left _ hconds1, fun ht i hlen => ?_⟩
        obtain ⟨err, hmem⟩ := hacts1 ht i hlen
        exact ⟨err, List.mem_append_left _ hmem⟩
      · obtain ⟨hc2, ha2⟩ := hprops2 r' h
        refine ⟨List.mem_append_right _ hc2, fun ht i hlen => ?_⟩
        obtain ⟨err, hmem⟩ := ha2 ht i hlen
        exact ⟨err, List.mem_append_right _ hmem⟩

/-- `triggerAutomation` never fails, returns engine and context unchanged,
emits events only for applicable (enabled, trigger-matched) rules, and —
when the engine is enabled — fully processes every applicable rule. -/
theorem triggerAutomation_ok (collab : Collaborators) (e : AutomationEngine)
    (triggerType : String) (context : JsObj) :
    ∃ evs, triggerAutomation collab e triggerType context = .ok (evs, e, context) ∧
      (∀ ev ∈ evs, eventRule ev ∈ applicableRules e triggerType) ∧
      (e.isEnabled = true → ∀ r ∈ applicableRules e triggerType,
        DispatchEvent.condsEvaluated r (evaluateConditions r.conditions context) ∈ evs ∧
        (evaluateConditions r.conditions context = true →
          ∀ (i : Nat) (h : i < r.actions.length),
            ∃ err, DispatchEvent.actionRun r i (r.actions.get ⟨i, h⟩) err ∈ evs)) := by
  cases he : e.isEnabled with
  | false =>
    refine ⟨[], by simp [triggerAutomation, he], by simp, ?_⟩
    intro h
    exact absurd h (by simp)
  | true =>
    obtain ⟨evs, hok, hrule, hprops⟩ := dispatchRules_spec collab context
      (applicableRules e triggerType)
    exact ⟨evs, by simp [triggerAutomation, he, hok, Except.map], hrule,
      fun _ => hprops⟩

/-- C1: a rule stored in the registry with `enabled = false` contributes no
event to any dispatch — its conditions are never evaluated and its actions
are never executed, even when its trigger type equals the dispatched one:
the `rule.enabled` filter (line 172) removes it before either step. -/
theorem disabledRuleNeverRuns (collab : Collaborators) (e : AutomationEngine)
    (triggerType : String) (context : JsObj) (r : AutomationRule)
    (evs : List DispatchEvent) (e' : AutomationEngine) (context' : JsObj)
    (hmem : r ∈ getRules e) (hdis : r.enabled = false)
    (hrun : triggerAutomation collab e triggerType context = .ok (evs, e', context')) :
    ∀ ev ∈ evs, eventRule ev ≠ r := by
  obtain ⟨evs0, hok, hrule, _⟩ := triggerAutomation_ok collab e triggerType context
  rw [hrun] at hok
  injection hok with hpair
  have hevs : evs = evs0 := congrArg (fun t => t.1) hpair
  subst hevs
  intro ev hev heq
  have hin := hrule ev hev
  rw [heq] at hin
  simp only [applicableRules] at hin
  have hfilter := (List.mem_filter.mp hin).2
  rw [Bool.and_eq_true] at hfilter
  rw [hdis] at hfilter
  exact Bool.false_ne_true hfilter.1

/-- A disabled copy of the high-priority rule under its own id, sharing the
`task_created` trigger type, for the C1 witness. -/
def disabledTaskRule : AutomationRule :=
  { highPriorityRule with id := "disabled-task-rule", enabled := false }

/-- C1 witness: a dispatch over an engine holding the disabled rule and an
enabled rule of the same trigger type produces a trace whose one event
belongs to the enabled rule, not to the disabled one. -/
theorem disabledRuleNeverRuns_witness :
    eventRule (DispatchEvent.condsEvaluated highPriorityRule false) ≠
      disabledTaskRule :=
  disabledRuleNeverRuns
    ⟨fun _ => .ok (), fun _ _ => .ok ()⟩
    (addRule (addRule (mkEngine true) disabledTaskRule) highPriorityRule)
    "task_created" [] disabledTaskRule
    [DispatchEvent.condsEvaluated highPriorityRule false]
    (addRule (addRule (mkEngine true) disabledTaskRule) highPriorityRule) []
    (List.mem_cons_self _ _) rfl rfl
    (DispatchEvent.condsEvaluated highPriorityRule false)
    (List.mem_cons_self _ _)

/-- C2: action failures are isolated per action.  For any collaborator
behaviour (in particular one whose every call throws), a dispatch never
propagates an exception to its caller, every applicable rule still has its
conditions evaluated, and every applicable rule whose conditions pass has
every one of its action positions attempted — later actions and later rules
are not blocked by an earlier throwing action. -/
theorem actionFailuresIsolated (collab : Collaborators) (e : AutomationEngine)
    (triggerType : String) (context : JsObj) (he : e.isEnabled = true) :
    ∃ evs, triggerAutomation collab e triggerType context = .ok (evs, e, context) ∧
      (∀ r ∈ applicableRules e triggerType,
        DispatchEvent.condsEvaluated r (evaluateConditions r.conditions context) ∈ evs) ∧
      (∀ r ∈ applicableRules e triggerType,
        evaluateConditions r.conditions context = true →
        ∀ (i : Nat) (h : i < r.actions.length),
          ∃ err, DispatchEvent.actionRun r i (r.actions.get ⟨i, h⟩) err ∈ evs) := by
  obtain ⟨evs, hok, _, hprops⟩ := triggerAutomation_ok collab e triggerType context
  exact ⟨evs, hok, fun r hr => (hprops he r hr).1, fun r hr => (hprops he r hr).2⟩

/-- C2 witness: two rules sharing a trigger type under a collaborator whose
every call throws. -/
theorem actionFailuresIsolated_witness :
    ∃ evs,
      triggerAutomation ⟨fun _ => .error "boom", fun _ _ => .error "boom"⟩
        (addRule (addRule (mkEngine true) milestoneRule) highPriorityRule)
        "task_created" [] = .ok
          (evs, addRule (addRule (mkEngine true) milestoneRule) highPriorityRule, []) ∧
      (∀ r ∈ applicableRules
          (addRule (addRule (mkEngine true) milestoneRule) highPriorityRule)
          "task_created",
        DispatchEvent.condsEvaluated r (evaluateConditions r.conditions []) ∈ evs) ∧
      (∀ r ∈ applicableRules
          (addRule (addRule (mkEngine true) milestoneRule) highPriorityRule)
          "task_created",
        evaluateConditions r.conditions [] = true →
        ∀ (i : Nat) (h : i < r.actions.length),
          ∃ err, DispatchEvent.actionRun r i (r.actions.get ⟨i, h⟩) err ∈ evs) :=
  actionFailuresIsolated ⟨fun _ => .error "boom", fun _ _ => .error "boom"⟩
    (addRule (addRule (mkEngine true) milestoneRule) highPriorityRule)
    "task_created" [] rfl

/-- C8: the engine never mutates the dispatch context (and the dispatch does
not modify the registry): the context — read only through dotted-path
descent in `getFieldValue` during condition evaluation and template
interpolation — and the engine come back from `triggerAutomation`
exactly as they went in, for every collaborator behaviour. -/
theorem contextReadOnly (collab : Collaborators) (e : AutomationEngine)
    (triggerType : String) (context : JsObj) :
    ∃ evs, triggerAutomation collab e triggerType context = .ok (evs, e, context) := by
  obtain ⟨evs, hok, _, _⟩ := triggerAutomation_ok collab e triggerType context
  exact ⟨evs, hok⟩

/-- C9: after `setEnabled(false)` every dispatch is a no-op, for every
trigger type and context and whatever the per-rule `enabled` flags are: the
trace is empty (no conditions evaluated, no actions executed) and the
registry is left untouched. -/
theorem globalDisableMakesDispatchNoOp (collab : Collaborators)
    (e : AutomationEngine) (triggerType : String) (context : JsObj) :
    triggerAutomation collab (setEnabled e false) triggerType context =
      .ok ([], setEnabled e false, context) ∧
    (setEnabled e false).rules = e.rules :=
  ⟨by simp [triggerAutomation, setEnabled], rfl⟩

/-- C10: the default rule `overdue-task-notification` can never fire:
whatever string the clock produced for its `less_than` literal and whatever
the context is, its condition list evaluates to false (a `less_than` against
a string literal is always false), so a `daily_schedule` dispatch against
the freshly initialized engine records only the failed condition evaluation
and never executes the rule's `send_notification` action. -/
theorem overdueRuleNeverFires (isoNow : String) (context : JsObj)
    (collab : Collaborators) :
    evaluateConditions (overdueTaskRule isoNow).conditions context = false ∧
    triggerAutomation collab (initializeEngine isoNow (mkEngine true))
        "daily_schedule" context =
      .ok ([DispatchEvent.condsEvaluated (overdueTaskRule isoNow) false],
        initializeEngine isoNow (mkEngine true), context) := by
  have hcond : evaluateConditions (overdueTaskRule isoNow).conditions context = false := by
    simp [overdueTaskRule, evaluateConditions, lessThan_str_false]
  refine ⟨hcond, ?_⟩
  have happ : applicableRules (initializeEngine isoNow (mkEngine true))
      "daily_schedule" = [overdueTaskRule isoNow] := rfl
  simp only [triggerAutomation, initializeEngine, mkEngine, Bool.not_true,
    Bool.false_eq_true, if_false, happ]
  simp only [dispatchRules, dispatchRule, hcond, Bool.false_eq_true, if_false]
  rfl

theorem takeWhile_brace (tail : List Char) :
    ∀ content : List Char, (∀ c ∈ content, c ≠ '}') →
      (content ++ '}' :: tail).takeWhile (fun c => c != '}') = content := by
  intro content
  induction content with
  | nil => intro _; simp [List.takeWhile_cons]
  | cons c cs ih =>
    intro h
    have hc : (c != '}') = true := by
      simpa [bne_iff_ne] using h c (List.mem_cons_self _ _)
    rw [List.cons_append, List.takeWhile_cons, hc]
    simp [ih (fun x hx => h x (List.mem_cons_of_mem _ hx))]

theorem dropWhile_brace (tail : List Char) :
    ∀ content : List Char, (∀ c ∈ content, c ≠ '}') →
      (content ++ '}' :: tail).dropWhile (fun c => c != '}') = '}' :: tail := by
  intro content
  induction content with
  | nil => intro _; simp [List.dropWhile_cons]
  | cons c cs ih =>
    intro h
    have hc : (c != '}') = true := by
      simpa [bne_iff_ne] using h c (List.mem_cons_self _ _)
    rw [List.cons_append, List.dropWhile_cons, hc]
    simp [ih (fun x hx => h x (List.mem_cons_of_mem _ hx))]

/-- When no token match starts at the current position, the scan emits the
head character and continues at the next position. -/
theorem interpList_cons_nomatch (context : JsObj) (c : Char) (rest : List Char)
    (hno : headTokenMatch (c :: rest) = false) :
    interpList context (c :: rest) = c :: interpList context rest := by
  rw [interpList.eq_def]
  split
  · rename_i rest' heq
    injection heq with hc hrest
    subst hc
    subst hrest
    split
    · rename_i rest2 head tail hdrop' htake'
      simp [headTokenMatch, hdrop', htake'] at hno
    · rfl
  · rename_i c' rest' heq
    injection heq with hc hrest
    subst hc
    subst hrest
    rfl
  · rename_i heq
    exact absurd heq (by simp)

/-- A template without any `{{...}}` token is returned character for
character: the scan finds no match anywhere. -/
theorem interpList_no_token (context : JsObj) :
    ∀ l : List Char, hasToken l = false → interpList context l = l := by
  intro l
  induction l with
  | nil => intro _; rw [interpList]
  | cons c rest ih =>
    intro h
    simp only [hasToken, Bool.or_eq_false_iff] at h
    rw [interpList_cons_nomatch context c rest h.1, ih h.2]

/-- When a `{{content}}` token starts at the current position (non-empty
content without `}`), the scan consumes the whole token, emits the
replacement for `content`, and continues right after the token. -/
theorem interpList_token_step (context : JsObj) (content rest : List Char)
    (hne : content ≠ []) (hnb : ∀ c ∈ content, c ≠ '}') :
    interpList context ('{' :: '{' :: (content ++ '}' :: '}' :: rest)) =
      interpReplacement context content ++ interpList context rest := by
  have htake := takeWhile_brace ('}' :: rest) content hnb
  have hdrop := dropWhile_brace ('}' :: rest) content hnb
  rw [interpList.eq_def]
  split
  · rename_i rest' heq
    injection heq with h1 h2
    injection h2 with h3 h4
    subst h4
    split
    · rename_i rest2 head tail hdrop' htake'
      rw [hdrop] at hdrop'
      injection hdrop' with g1 g2
      injection g2 with g3 g4
      subst g4
      rw [htake]
    · rename_i hnomatch
      exfalso
      rcases hc : content with _ | ⟨c0, cs⟩
      · exact hne hc
      · subst hc
        exact hnomatch rest c0 cs hdrop htake
  · rename_i c' rest' hno heq
    exfalso
    injection heq with e1 e2
    exact hno (content ++ '}' :: '}' :: rest) e1.symm e2.symm
  · rename_i heq
    exact absurd heq (by simp)

/-- C6: template interpolation is the identity on a template containing no
`{{...}}` token; and at every token occurrence `{{content}}`, a token whose
trimmed dotted path resolves to a defined value is replaced by the string
form of that value while one whose path resolves to undefined is left
verbatim, after which the scan continues on the remainder of the template —
so repeated occurrences and repeated paths are each resolved the same way. -/
theorem interpolationTokenSemantics (s : String) (context : JsObj) :
    (hasToken s.data = false → interpolateString s context = s) ∧
    (∀ content rest : List Char, content ≠ [] → (∀ c ∈ content, c ≠ '}') →
      interpList context ('{' :: '{' :: (content ++ '}' :: '}' :: rest)) =
        (match getFieldValue context (String.mk (trimChars content)) with
         | some v => (jsToString v).data
         | none => '{' :: '{' :: (content ++ ['}', '}'])) ++
          interpList context rest) := by
  constructor
  · intro h
    cases s with
    | mk l =>
      show String.mk (interpList context l) = String.mk l
      rw [interpList_no_token context l h]
  · intro content rest hne hnb
    rw [interpList_token_step context content rest hne hnb]
    rfl

/-- C6 witness: a token-free template is untouched, and the unresolvable
token `{{missing.path}}` of the spec's example is processed at a concrete
occurrence. -/
theorem interpolationTokenSemantics_witness :
    interpolateString "hello world" [("task", JsValue.obj [("title", JsValue.str "T")])] =
      "hello world" ∧
    interpList [] ('{' :: '{' :: ("missing.path".data ++ '}' :: '}' :: [])) =
      (match getFieldValue [] (String.mk (trimChars "missing.path".data)) with
       | some v => (jsToString v).data
       | none => '{' :: '{' :: ("missing.path".data ++ ['}', '}'])) ++
        interpList [] [] :=
  ⟨(interpolationTokenSemantics "hello world"
      [("task", JsValue.obj [("title", JsValue.str "T")])]).1 (by decide),
   (interpolationTokenSemantics "x" []).2 "missing.path".data [] (by decide)
     (by decide)⟩
